import Mathlib

/-!
# eoshttp: a shallow embedding of `src/eoshttp.go`

The Go package is a thin wrapper around `net/http`: four verb methods on
`HTTPClient` (`Get`, `Post`, `Put`, `Delete`), the helpers `marshallJSON`,
`sendRequest`, `readResponse`, and the predicate `Is404Error`.

Modelling decisions.

* Everything the package delegates to the standard library and cannot decide by
  itself (`json.Marshal`, URL parsing inside `http.NewRequest`, `client.Do`, the
  JSON decoder used for error bodies) is a field of `World`; the package code is
  a function of the world.
* A request does not carry the raw string `Host + path` but the URL that
  `http.NewRequest` obtains by parsing it; the two print differently in general
  (a space in the path is sent as `%20`, the scheme is lower-cased).
* A Go pair `(value, error)` is a Lean pair of options, `none` standing for `nil`.
  A nil `[]byte` is `none`, a non-nil slice is `some bytes`.
* A call of a verb method yields a `Run`: how the call ended (`Outcome`: it
  returned a pair, or it stopped with a nil-pointer dereference) and the `trace`
  of observable effects in program order (log lines, requests handed to
  `client.Do`, reads of the response body, `Body.Close()`).
* `int` is `Int`; no arithmetic is performed on status codes, only `> 299` and
  decimal printing.
* The logger `log.Error` of the imported package `eoslog` is taken to be a working
  `*log.Logger`: a log call appends one line to the trace and nothing else.
-/

namespace Eoshttp

/-! ## Data model -/

/-- Raw bytes (`[]byte`). -/
abbrev Bytes := List UInt8

/-- Where a non-nil `error` value was created. The Go code never inspects this;
it only records provenance so that statements can speak about the error kinds. -/
inductive ErrorOrigin
  /-- Built by `errors.New(fmt.Sprint(statusCode))` in `readResponse`. -/
  | httpStatus
  /-- Returned by `json.Marshal`. -/
  | marshal
  /-- Returned by `http.NewRequest`. -/
  | newRequest
  /-- Returned by `client.Do`. -/
  | transport
  /-- Returned by `ioutil.ReadAll` on the response body. -/
  | bodyRead
  /-- Any other value implementing `error`, built outside this package. -/
  | foreign
  deriving DecidableEq, Repr

/-- A non-nil Go `error`: its provenance and the text `fmt.Sprint` prints for it
(the result of its `Error()` method). The nil error is `none : Option GoError`. -/
structure GoError where
  origin : ErrorOrigin
  text : String
  deriving DecidableEq, Repr

/-- The type `http.Header`: canonical key to list of values. -/
abbrev Header := List (String × List String)

/-- The method `Header.Values`: all values stored under `key` (empty when absent). -/
def Header.Values (h : Header) (key : String) : List String :=
  match h.lookup key with
  | some vs => vs
  | none => []

/-- The method `Header.Add`: append `value` to the values of `key`. Both keys the package
uses are already in canonical MIME form, so no canonicalisation is modelled. -/
def Header.Add : Header → String → String → Header
  | [], key, value => [(key, [value])]
  | (k, vs) :: rest, key, value =>
    if k = key then (k, vs ++ [value]) :: rest else (k, vs) :: Header.Add rest key value

/-- The method `Header.Set`: replace the values of `key` by the single `value`. -/
def Header.Set : Header → String → String → Header
  | [], key, value => [(key, [value])]
  | (k, vs) :: rest, key, value =>
    if k = key then (k, [value]) :: rest else (k, vs) :: Header.Set rest key value

/-- The parts of `*http.Request` the package touches. `URL` is the parsed URL
`req.URL`, represented by the string its `String()` method prints; `Body` is
`none` for a nil body reader and `some bs` for a reader that supplies exactly
`bs`. -/
structure Request where
  Method : String
  URL : String
  Header : Header
  Body : Option Bytes
  deriving DecidableEq, Repr

/-- A response body stream (`io.ReadCloser`): the bytes it delivers and, when
reading fails after them, the error (`none` means the stream ends with EOF). -/
structure Body where
  data : Bytes
  readErr : Option GoError
  deriving DecidableEq, Repr

/-- The parts of a non-nil `*http.Response` the package touches. -/
structure Response where
  Status : String
  StatusCode : Int
  Body : Body
  deriving DecidableEq, Repr

/-- The type `HTTPClient` of the source. -/
structure HTTPClient where
  Bearer : String
  Host : String
  deriving DecidableEq, Repr

/-- Observable effects of a call, in program order. -/
inductive Event
  /-- One line written through `log.Error`. -/
  | logError (line : String)
  /-- The call `client.Do(req)`, with the request as it is at that moment. -/
  | clientDo (req : Request)
  /-- The response body is read (by the JSON decoder or by `ioutil.ReadAll`). -/
  | bodyRead
  /-- The call `res.Body.Close()`. -/
  | bodyClose
  deriving DecidableEq, Repr

/-- How a call of a verb method ends. -/
inductive Outcome
  /-- The method returned `(bytes, err)`. -/
  | returned (bytes : Option Bytes) (err : Option GoError)
  /-- The goroutine panicked with a nil pointer dereference. -/
  | nilDereference
  deriving DecidableEq, Repr

/-- The result of running a verb method. -/
structure Run where
  outcome : Outcome
  trace : List Event
  deriving DecidableEq, Repr

/-- The standard-library behaviour the package relies on; `α` is the type of
payloads (`interface{}` in the source). -/
structure World (α : Type) where
  /-- The function `json.Marshal`. -/
  Marshal : α → Option Bytes × Option GoError
  /-- URL handling inside `http.NewRequest`: `url.Parse` of the raw string, then
  removal of an empty port. The result is the parse error, or the parsed URL,
  represented by the string its `String()` method prints. -/
  parseURL : String → Except GoError String
  /-- The method `client.Do` of the package-level client. -/
  Do : Request → Option Response × Option GoError
  /-- What `%s` prints for `response["message"]` after the best-effort
  `json.NewDecoder(res.Body).Decode(&response)`, whose error is discarded. -/
  message : Body → String

/-! ## Standard-library functions with a fixed meaning -/

/-- The constant `http.MethodGet`. -/
def MethodGet : String := "GET"
/-- The constant `http.MethodPost`. -/
def MethodPost : String := "POST"
/-- The constant `http.MethodPut`. -/
def MethodPut : String := "PUT"
/-- The constant `http.MethodDelete`. -/
def MethodDelete : String := "DELETE"
/-- The constant `http.StatusNotFound`. -/
def StatusNotFound : Int := 404

/-- The call `fmt.Sprint(i)` for an `int`: the decimal rendering, with a leading
minus sign for negative numbers. -/
def Sprint : Int → String
  | Int.ofNat n => Nat.repr n
  | Int.negSucc n => "-" ++ Nat.repr (n + 1)

/-- The call `fmt.Sprint(err)` for a value of interface type `error`. -/
def SprintError : Option GoError → String
  | none => "<nil>"
  | some e => e.text

/-- The call `errors.New(text)` as used in `readResponse`. -/
def errorsNew (text : String) : GoError := ⟨ErrorOrigin.httpStatus, text⟩

/-- The call `http.NewRequest(method, url, body)`. The four methods used are
valid, so the only failure is a raw URL that does not parse. The request stores
the parsed URL, not the raw string, and a fresh request has an empty header. -/
def NewRequest {α : Type} (w : World α) (method url : String) (body : Option Bytes) :
    Option Request × Option GoError :=
  match w.parseURL url with
  | Except.error err => (none, some err)
  | Except.ok u => (some { Method := method, URL := u, Header := [], Body := body }, none)

/-- The call `ioutil.ReadAll(body)`: always a non-nil slice with the bytes read,
and the read error if the stream did not end with EOF. -/
def ReadAll (b : Body) : Option Bytes × Option GoError :=
  (some b.data, b.readErr)

/-! ## The package -/

/-- The function `Is404Error` (source lines 116-119). -/
def Is404Error (err : Option GoError) : Bool :=
  Sprint StatusNotFound == SprintError err

/-- The function `marshallJSON` (source lines 121-129). -/
def marshallJSON {α : Type} (w : World α) (data : α) :
    (Option Bytes × Option GoError) × List Event :=
  match w.Marshal data with
  | (_, some err) => ((none, some err), [Event.logError "Problem marshalling json for http request"])
  | (jsonData, none) => ((jsonData, none), [])

/-- The function `sendRequest` (source lines 131-140). The request is mutated in
place before it is handed to `client.Do`. -/
def sendRequest {α : Type} (w : World α) (req : Request) :
    (Option Response × Option GoError) × List Event :=
  let req1 := { req with Header := Header.Set req.Header "Content-Type" "application/json; charset=utf-8" }
  match w.Do req1 with
  | (_, some err) => ((none, some err), [Event.clientDo req1, Event.logError "Problem sending http request"])
  | (res, none) => ((res, none), [Event.clientDo req1])

/-- The function `readResponse` (source lines 142-158), for a non-nil response. -/
def readResponse {α : Type} (w : World α) (res : Response) :
    (Option Bytes × Option GoError) × List Event :=
  let statusCode := res.StatusCode
  if statusCode > 299 then
    let status := res.Status
    ((none, some (errorsNew (Sprint statusCode))),
      [Event.bodyRead, Event.logError (status ++ ": " ++ w.message res.Body)])
  else
    match ReadAll res.Body with
    | (body, some err) =>
      ((body, some err), [Event.bodyRead, Event.logError ("Problem reading http response: " ++ err.text)])
    | (body, none) => ((body, none), [Event.bodyRead])

/-- The tail shared verbatim by the four verb methods (source lines 35-42, 61-68,
87-94, 106-113), which differ only in the log line `failLine`:

    res, err := sendRequest(client, req)
    defer res.Body.Close()
    if err != nil { log...; return nil, err }
    return readResponse(res)

The `defer` statement evaluates `res.Body` when it is executed, before the error
check: with `res == nil` that is a nil pointer dereference and nothing has been
deferred. Otherwise the deferred `Close` runs once, when the method returns. -/
def sendAndRead {α : Type} (w : World α) (req : Request) (failLine : String) : Run :=
  match sendRequest w req with
  | ((none, _), t) => ⟨Outcome.nilDereference, t⟩
  | ((some _, some err), t) =>
    ⟨Outcome.returned none (some err), t ++ [Event.logError failLine, Event.bodyClose]⟩
  | ((some res, none), t) =>
    match readResponse w res with
    | ((bytes, err), t2) => ⟨Outcome.returned bytes err, t ++ t2 ++ [Event.bodyClose]⟩

/-- The method `HTTPClient.Get` (source lines 27-43). -/
def HTTPClient.Get {α : Type} (w : World α) (c : HTTPClient) (path : String) : Run :=
  match NewRequest w MethodGet (c.Host ++ path) none with
  | (_, some err) =>
    ⟨Outcome.returned none (some err),
      [Event.logError "Problem getting new http GET request from http package"]⟩
  | (none, none) => ⟨Outcome.nilDereference, []⟩
  | (some req, none) =>
    let req1 := { req with Header := Header.Add req.Header "Authorization" c.Bearer }
    sendAndRead w req1 "Problem sending http POST request"

/-- The method `HTTPClient.Post` (source lines 46-69). -/
def HTTPClient.Post {α : Type} (w : World α) (c : HTTPClient) (path : String) (data : α) : Run :=
  match marshallJSON w data with
  | ((_, some err), t) =>
    ⟨Outcome.returned none (some err),
      t ++ [Event.logError "Problem marshalling json for POST request"]⟩
  | ((requestJSON, none), t) =>
    match NewRequest w MethodPost (c.Host ++ path) (some (requestJSON.getD [])) with
    | (_, some err) =>
      ⟨Outcome.returned none (some err),
        t ++ [Event.logError "Problem getting new http POST request from http package"]⟩
    | (none, none) => ⟨Outcome.nilDereference, t⟩
    | (some req, none) =>
      let req1 := { req with Header := Header.Add req.Header "Authorization" c.Bearer }
      let r := sendAndRead w req1 "Problem sending http POST request"
      ⟨r.outcome, t ++ r.trace⟩

/-- The method `HTTPClient.Put` (source lines 72-95). -/
def HTTPClient.Put {α : Type} (w : World α) (c : HTTPClient) (path : String) (data : α) : Run :=
  match marshallJSON w data with
  | ((_, some err), t) =>
    ⟨Outcome.returned none (some err),
      t ++ [Event.logError "Problem marshalling json for PUT request"]⟩
  | ((requestJSON, none), t) =>
    match NewRequest w MethodPut (c.Host ++ path) (some (requestJSON.getD [])) with
    | (_, some err) =>
      ⟨Outcome.returned none (some err),
        t ++ [Event.logError "Problem getting new http PUT request from http package"]⟩
    | (none, none) => ⟨Outcome.nilDereference, t⟩
    | (some req, none) =>
      let req1 := { req with Header := Header.Add req.Header "Authorization" c.Bearer }
      let r := sendAndRead w req1 "Problem sending http PUT request"
      ⟨r.outcome, t ++ r.trace⟩

/-- The method `HTTPClient.Delete` (source lines 98-114). -/
def HTTPClient.Delete {α : Type} (w : World α) (c : HTTPClient) (path : String) : Run :=
  match NewRequest w MethodDelete (c.Host ++ path) none with
  | (_, some err) =>
    ⟨Outcome.returned none (some err),
      [Event.logError "Problem getting new http DELETE request from http package"]⟩
  | (none, none) => ⟨Outcome.nilDereference, []⟩
  | (some req, none) =>
    let req1 := { req with Header := Header.Add req.Header "Authorization" c.Bearer }
    sendAndRead w req1 "Problem sending http DELETE request"

/-! ## Observations on a trace -/

/-- The requests handed to `client.Do`, in order. -/
def transportCalls : List Event → List Request
  | [] => []
  | Event.clientDo req :: rest => req :: transportCalls rest
  | _ :: rest => transportCalls rest

/-- How many times `res.Body.Close()` was called. -/
def closeCount : List Event → Nat
  | [] => 0
  | Event.bodyClose :: rest => closeCount rest + 1
  | _ :: rest => closeCount rest

/-- The three-character decimal numeral of a number below 1000 that has a
hundreds digit, written out digit by digit. -/
def threeDigitNumeral (n : Nat) : String :=
  String.mk [Nat.digitChar (n / 100), Nat.digitChar (n / 10 % 10), Nat.digitChar (n % 10)]

/-! ## Requests at the stages of a verb method -/

/-- A fresh request after `req.Header.Add("Authorization", bearer)`. -/
def authorized (method url bearer : String) (body : Option Bytes) : Request :=
  { Method := method, URL := url, Header := Header.Add [] "Authorization" bearer, Body := body }

/-- The request `sendRequest` passes to `client.Do`. -/
def withContentType (req : Request) : Request :=
  { req with Header := Header.Set req.Header "Content-Type" "application/json; charset=utf-8" }

/-- The request as `client.Do` receives it: the header of a fresh request after
`Add("Authorization", bearer)` and `Set("Content-Type", ...)`. -/
def wireRequest (method url bearer : String) (body : Option Bytes) : Request :=
  { Method := method, URL := url,
    Header := [("Authorization", [bearer]), ("Content-Type", ["application/json; charset=utf-8"])],
    Body := body }

/-! ## Reading decimal numerals back -/

/-- The number a list of decimal digit characters denotes, most significant
digit first, continuing from `acc`. -/
def decimalValue (acc : Nat) (cs : List Char) : Nat :=
  cs.foldl (fun a c => 10 * a + (c.toNat - 48)) acc

/-! ## Concrete worlds used to instantiate the theorems -/

/-- A response with the given status code and body bytes, read without error. -/
def sampleResponse (code : Int) (status : String) (bs : Bytes) : Response :=
  { Status := status, StatusCode := code, Body := { data := bs, readErr := none } }

/-- The transport error of a refused connection. -/
def refused : GoError := ⟨ErrorOrigin.transport, "dial tcp 127.0.0.1:1: connect: connection refused"⟩

/-- The marshal error of an unsupported value. -/
def unsupported : GoError := ⟨ErrorOrigin.marshal, "json: unsupported type: chan int"⟩

/-- Percent-encoding of the spaces in a list of characters. -/
def escapeSpaceChars : List Char → List Char
  | [] => []
  | c :: cs =>
    if c.toNat = 32 then '%' :: '2' :: '0' :: escapeSpaceChars cs else c :: escapeSpaceChars cs

/-- What `url.Parse` followed by `String()` yields on the raw URLs of the
instances below: a lower-case `http` scheme, a numeric or lower-case host with an
optional port, and a path of letters, digits, slashes and spaces. Such a URL
parses, and it prints unchanged except that each space of the path is printed as
`%20`. -/
def escapeSpaces (raw : String) : String := String.mk (escapeSpaceChars raw.data)

/-- A world whose payloads are booleans: `true` marshals to the bytes of `true`,
`false` stands for a value `json.Marshal` rejects; raw URLs are parsed as
`escapeSpaces` describes; the transport answers every request with `res`. -/
def answering (res : Response) : World Bool where
  Marshal := fun b => if b then (some [116, 114, 117, 101], none) else (none, some unsupported)
  parseURL := fun raw => Except.ok (escapeSpaces raw)
  Do := fun _ => (some res, none)
  message := fun _ => "%!s(<nil>)"

/-- The same world with a transport that fails on every request. -/
def refusing : World Bool where
  Marshal := fun b => if b then (some [116, 114, 117, 101], none) else (none, some unsupported)
  parseURL := fun raw => Except.ok (escapeSpaces raw)
  Do := fun _ => (none, some refused)
  message := fun _ => "%!s(<nil>)"

/-- A client configuration used in the instances. -/
def sampleClient : HTTPClient := { Bearer := "s3cr3t", Host := "http://127.0.0.1:1" }

/-! ## Auxiliary facts -/

theorem digitChar_value (k : Nat) (h : k < 10) : (Nat.digitChar k).toNat - 48 = k := by
  interval_cases k <;> rfl

theorem decimalValue_toDigitsCore (fuel : Nat) :
    ∀ (n : Nat) (ds : List Char), n < fuel →
      decimalValue 0 (Nat.toDigitsCore 10 fuel n ds) = decimalValue n ds := by
  induction fuel with
  | zero => intro n ds h; omega
  | succ fuel ih =>
    intro n ds h
    unfold Nat.toDigitsCore
    by_cases h0 : n / 10 = 0
    · have hn : n < 10 := by omega
      have hm : n % 10 = n := Nat.mod_eq_of_lt hn
      simp only [h0, if_true, hm]
      simp [decimalValue, digitChar_value n hn]
    · have hlt : n / 10 < fuel := by omega
      simp only [h0, if_false]
      rw [ih (n / 10) _ hlt]
      have hd : (Nat.digitChar (n % 10)).toNat - 48 = n % 10 :=
        digitChar_value _ (Nat.mod_lt _ (by decide))
      simp only [decimalValue, List.foldl_cons, hd]
      congr 1
      omega

/-- Reading back the decimal rendering of a natural number gives the number. -/
theorem decimalValue_repr (n : Nat) : decimalValue 0 (Nat.repr n).data = n := by
  have h := decimalValue_toDigitsCore (n + 1) n [] (Nat.lt_succ_self n)
  simpa [Nat.repr, Nat.toDigits, List.asString, decimalValue] using h

/-- Only the number 404 prints as the string 404. -/
theorem Sprint_eq_404 (i : Int) : Sprint i = "404" ↔ i = 404 := by
  constructor
  · intro h
    cases i with
    | ofNat n =>
      have h1 : decimalValue 0 (Nat.repr n).data = decimalValue 0 ("404" : String).data := by
        simp only [Sprint] at h
        rw [h]
      rw [decimalValue_repr] at h1
      have h2 : decimalValue 0 ("404" : String).data = 404 := by decide
      rw [h2] at h1
      subst h1
      rfl
    | negSucc n =>
      exfalso
      have h1 := congrArg String.data h
      simp [Sprint] at h1
  · rintro rfl
    decide

theorem toDigitsCore_more (fuel n : Nat) (ds : List Char) (h : n / 10 ≠ 0) :
    Nat.toDigitsCore 10 (fuel + 1) n ds
      = Nat.toDigitsCore 10 fuel (n / 10) (Nat.digitChar (n % 10) :: ds) := by
  simp [Nat.toDigitsCore, h]

theorem toDigitsCore_last (fuel n : Nat) (ds : List Char) (h : n / 10 = 0) :
    Nat.toDigitsCore 10 (fuel + 1) n ds = Nat.digitChar (n % 10) :: ds := by
  simp [Nat.toDigitsCore, h]

/-- A number from 100 to 999 prints as its three decimal digits. -/
theorem Sprint_three_digits (n : Nat) (h1 : 100 ≤ n) (h2 : n ≤ 999) :
    Sprint (Int.ofNat n) = threeDigitNumeral n := by
  obtain ⟨k, rfl⟩ : ∃ k, n = k + 2 := ⟨n - 2, by omega⟩
  have e1 : (k + 2) / 10 / 10 % 10 = (k + 2) / 100 := by omega
  simp only [Sprint, Nat.repr, Nat.toDigits, threeDigitNumeral, List.asString]
  rw [toDigitsCore_more _ _ _ (by omega), toDigitsCore_more _ _ _ (by omega),
    toDigitsCore_last _ _ _ (by omega), e1]

theorem transportCalls_append (xs ys : List Event) :
    transportCalls (xs ++ ys) = transportCalls xs ++ transportCalls ys := by
  induction xs with
  | nil => rfl
  | cons x xs ih => cases x <;> simp [transportCalls, ih]

theorem closeCount_append (xs ys : List Event) :
    closeCount (xs ++ ys) = closeCount xs + closeCount ys := by
  induction xs with
  | nil => simp [closeCount]
  | cons x xs ih => cases x <;> simp [closeCount, ih]; omega

theorem sendRequest_failure {α : Type} (w : World α) (req : Request) (r : Option Response)
    (e : GoError) (h : w.Do (withContentType req) = (r, some e)) :
    sendRequest w req = ((none, some e),
      [Event.clientDo (withContentType req), Event.logError "Problem sending http request"]) := by
  simp only [withContentType] at h
  simp [sendRequest, withContentType, h]

theorem sendRequest_success {α : Type} (w : World α) (req : Request) (r : Option Response)
    (h : w.Do (withContentType req) = (r, none)) :
    sendRequest w req = ((r, none), [Event.clientDo (withContentType req)]) := by
  simp only [withContentType] at h
  simp [sendRequest, withContentType, h]

theorem readResponse_error_status {α : Type} (w : World α) (res : Response)
    (h : 299 < res.StatusCode) :
    readResponse w res = ((none, some (errorsNew (Sprint res.StatusCode))),
      [Event.bodyRead, Event.logError (res.Status ++ ": " ++ w.message res.Body)]) := by
  simp [readResponse, h]

theorem readResponse_read_ok {α : Type} (w : World α) (res : Response)
    (h : res.StatusCode ≤ 299) (hr : res.Body.readErr = none) :
    readResponse w res = ((some res.Body.data, none), [Event.bodyRead]) := by
  have h1 : ¬ res.StatusCode > 299 := by omega
  simp [readResponse, ReadAll, h1, hr]

theorem readResponse_read_failed {α : Type} (w : World α) (res : Response) (e : GoError)
    (h : res.StatusCode ≤ 299) (hr : res.Body.readErr = some e) :
    readResponse w res = ((some res.Body.data, some e),
      [Event.bodyRead, Event.logError ("Problem reading http response: " ++ e.text)]) := by
  have h1 : ¬ res.StatusCode > 299 := by omega
  simp [readResponse, ReadAll, h1, hr]

theorem readResponse_no_call {α : Type} (w : World α) (res : Response) :
    transportCalls (readResponse w res).2 = [] := by
  by_cases h : 299 < res.StatusCode
  · rw [readResponse_error_status w res h]; rfl
  · cases hr : res.Body.readErr with
    | none => rw [readResponse_read_ok w res (by omega) hr]; rfl
    | some e => rw [readResponse_read_failed w res e (by omega) hr]; rfl

theorem readResponse_no_close {α : Type} (w : World α) (res : Response) :
    closeCount (readResponse w res).2 = 0 := by
  by_cases h : 299 < res.StatusCode
  · rw [readResponse_error_status w res h]; rfl
  · cases hr : res.Body.readErr with
    | none => rw [readResponse_read_ok w res (by omega) hr]; rfl
    | some e => rw [readResponse_read_failed w res e (by omega) hr]; rfl

/-- When the transport fails, the tail of a verb stops at the `defer` statement. -/
theorem sendAndRead_failure {α : Type} (w : World α) (req : Request) (line : String)
    (r : Option Response) (e : GoError) (h : w.Do (withContentType req) = (r, some e)) :
    sendAndRead w req line = ⟨Outcome.nilDereference,
      [Event.clientDo (withContentType req), Event.logError "Problem sending http request"]⟩ := by
  simp [sendAndRead, sendRequest_failure w req r e h]

/-- When the transport delivers a response, the tail of a verb returns what
`readResponse` returns and closes the body afterwards. -/
theorem sendAndRead_success {α : Type} (w : World α) (req : Request) (line : String)
    (res : Response) (h : w.Do (withContentType req) = (some res, none)) :
    sendAndRead w req line = ⟨Outcome.returned (readResponse w res).1.1 (readResponse w res).1.2,
      Event.clientDo (withContentType req) :: ((readResponse w res).2 ++ [Event.bodyClose])⟩ := by
  simp [sendAndRead, sendRequest_success w req (some res) h]

/-- A transport that breaks its contract and returns neither a response nor an
error also stops the tail of a verb at the `defer` statement. -/
theorem sendAndRead_nothing {α : Type} (w : World α) (req : Request) (line : String)
    (h : w.Do (withContentType req) = (none, none)) :
    sendAndRead w req line = ⟨Outcome.nilDereference, [Event.clientDo (withContentType req)]⟩ := by
  simp [sendAndRead, sendRequest_success w req none h]

/-- The tail of every verb hands exactly one request to the transport: the given
one with the content type set. -/
theorem transportCalls_sendAndRead {α : Type} (w : World α) (req : Request) (line : String) :
    transportCalls (sendAndRead w req line).trace = [withContentType req] := by
  rcases hd : w.Do (withContentType req) with ⟨r, e⟩
  cases e with
  | some e => rw [sendAndRead_failure w req line r e hd]; rfl
  | none =>
    cases r with
    | none => rw [sendAndRead_nothing w req line hd]; rfl
    | some res =>
      rw [sendAndRead_success w req line res hd]
      simp [transportCalls, transportCalls_append, readResponse_no_call]

theorem withContentType_authorized (method url bearer : String) (body : Option Bytes) :
    withContentType (authorized method url bearer body) = wireRequest method url bearer body := by
  simp [withContentType, authorized, wireRequest, Header.Add, Header.Set]

theorem Get_sends {α : Type} (w : World α) (c : HTTPClient) (path u : String)
    (h : w.parseURL (c.Host ++ path) = Except.ok u) :
    HTTPClient.Get w c path
      = sendAndRead w (authorized "GET" u c.Bearer none)
          "Problem sending http POST request" := by
  simp [HTTPClient.Get, NewRequest, h, authorized, MethodGet]

theorem Delete_sends {α : Type} (w : World α) (c : HTTPClient) (path u : String)
    (h : w.parseURL (c.Host ++ path) = Except.ok u) :
    HTTPClient.Delete w c path
      = sendAndRead w (authorized "DELETE" u c.Bearer none)
          "Problem sending http DELETE request" := by
  simp [HTTPClient.Delete, NewRequest, h, authorized, MethodDelete]

theorem Post_sends {α : Type} (w : World α) (c : HTTPClient) (path u : String) (data : α)
    (js : Option Bytes) (hM : w.Marshal data = (js, none))
    (h : w.parseURL (c.Host ++ path) = Except.ok u) :
    HTTPClient.Post w c path data
      = sendAndRead w (authorized "POST" u c.Bearer (some (js.getD [])))
          "Problem sending http POST request" := by
  simp [HTTPClient.Post, marshallJSON, hM, NewRequest, h, authorized, MethodPost]

theorem Put_sends {α : Type} (w : World α) (c : HTTPClient) (path u : String) (data : α)
    (js : Option Bytes) (hM : w.Marshal data = (js, none))
    (h : w.parseURL (c.Host ++ path) = Except.ok u) :
    HTTPClient.Put w c path data
      = sendAndRead w (authorized "PUT" u c.Bearer (some (js.getD [])))
          "Problem sending http PUT request" := by
  simp [HTTPClient.Put, marshallJSON, hM, NewRequest, h, authorized, MethodPut]

theorem Get_unsent {α : Type} (w : World α) (c : HTTPClient) (path : String) (e : GoError)
    (h : w.parseURL (c.Host ++ path) = Except.error e) :
    transportCalls (HTTPClient.Get w c path).trace = [] := by
  simp [HTTPClient.Get, NewRequest, h, transportCalls]

theorem Delete_unsent {α : Type} (w : World α) (c : HTTPClient) (path : String) (e : GoError)
    (h : w.parseURL (c.Host ++ path) = Except.error e) :
    transportCalls (HTTPClient.Delete w c path).trace = [] := by
  simp [HTTPClient.Delete, NewRequest, h, transportCalls]

theorem Post_marshal_failure {α : Type} (w : World α) (c : HTTPClient) (path : String) (data : α)
    (js : Option Bytes) (e : GoError) (hM : w.Marshal data = (js, some e)) :
    HTTPClient.Post w c path data = ⟨Outcome.returned none (some e),
      [Event.logError "Problem marshalling json for http request",
       Event.logError "Problem marshalling json for POST request"]⟩ := by
  simp [HTTPClient.Post, marshallJSON, hM]

theorem Put_marshal_failure {α : Type} (w : World α) (c : HTTPClient) (path : String) (data : α)
    (js : Option Bytes) (e : GoError) (hM : w.Marshal data = (js, some e)) :
    HTTPClient.Put w c path data = ⟨Outcome.returned none (some e),
      [Event.logError "Problem marshalling json for http request",
       Event.logError "Problem marshalling json for PUT request"]⟩ := by
  simp [HTTPClient.Put, marshallJSON, hM]

theorem Post_unsent {α : Type} (w : World α) (c : HTTPClient) (path : String) (data : α)
    (js : Option Bytes) (e : GoError) (hM : w.Marshal data = (js, none))
    (h : w.parseURL (c.Host ++ path) = Except.error e) :
    transportCalls (HTTPClient.Post w c path data).trace = [] := by
  simp [HTTPClient.Post, marshallJSON, hM, NewRequest, h, transportCalls]

theorem Put_unsent {α : Type} (w : World α) (c : HTTPClient) (path : String) (data : α)
    (js : Option Bytes) (e : GoError) (hM : w.Marshal data = (js, none))
    (h : w.parseURL (c.Host ++ path) = Except.error e) :
    transportCalls (HTTPClient.Put w c path data).trace = [] := by
  simp [HTTPClient.Put, marshallJSON, hM, NewRequest, h, transportCalls]

/-- Every request `Get` hands to the transport is the wire request for GET. -/
theorem Get_calls {α : Type} (w : World α) (c : HTTPClient) (path : String) :
    ∀ req ∈ transportCalls (HTTPClient.Get w c path).trace,
      w.parseURL (c.Host ++ path) = Except.ok req.URL
        ∧ req = wireRequest "GET" req.URL c.Bearer none := by
  intro req hreq
  cases h : w.parseURL (c.Host ++ path) with
  | error e => rw [Get_unsent w c path e h] at hreq; cases hreq
  | ok u =>
    rw [Get_sends w c path u h, transportCalls_sendAndRead, withContentType_authorized] at hreq
    have hr : req = wireRequest "GET" u c.Bearer none := by simpa using hreq
    subst hr
    exact ⟨rfl, rfl⟩

/-- Every request `Delete` hands to the transport is the wire request for DELETE. -/
theorem Delete_calls {α : Type} (w : World α) (c : HTTPClient) (path : String) :
    ∀ req ∈ transportCalls (HTTPClient.Delete w c path).trace,
      w.parseURL (c.Host ++ path) = Except.ok req.URL
        ∧ req = wireRequest "DELETE" req.URL c.Bearer none := by
  intro req hreq
  cases h : w.parseURL (c.Host ++ path) with
  | error e => rw [Delete_unsent w c path e h] at hreq; cases hreq
  | ok u =>
    rw [Delete_sends w c path u h, transportCalls_sendAndRead, withContentType_authorized] at hreq
    have hr : req = wireRequest "DELETE" u c.Bearer none := by simpa using hreq
    subst hr
    exact ⟨rfl, rfl⟩

/-- Every request `Post` hands to the transport is the wire request for POST
whose body holds the marshalled bytes. -/
theorem Post_calls {α : Type} (w : World α) (c : HTTPClient) (path : String) (data : α) :
    ∀ req ∈ transportCalls (HTTPClient.Post w c path data).trace,
      w.parseURL (c.Host ++ path) = Except.ok req.URL
        ∧ req = wireRequest "POST" req.URL c.Bearer (some ((w.Marshal data).1.getD [])) := by
  intro req hreq
  rcases hM : w.Marshal data with ⟨js, me⟩
  cases me with
  | some e => rw [Post_marshal_failure w c path data js e hM] at hreq; cases hreq
  | none =>
    cases h : w.parseURL (c.Host ++ path) with
    | error e => rw [Post_unsent w c path data js e hM h] at hreq; cases hreq
    | ok u =>
      rw [Post_sends w c path u data js hM h, transportCalls_sendAndRead,
        withContentType_authorized] at hreq
      have hr : req = wireRequest "POST" u c.Bearer (some (js.getD [])) := by simpa using hreq
      subst hr
      exact ⟨rfl, rfl⟩

/-- Every request `Put` hands to the transport is the wire request for PUT whose
body holds the marshalled bytes. -/
theorem Put_calls {α : Type} (w : World α) (c : HTTPClient) (path : String) (data : α) :
    ∀ req ∈ transportCalls (HTTPClient.Put w c path data).trace,
      w.parseURL (c.Host ++ path) = Except.ok req.URL
        ∧ req = wireRequest "PUT" req.URL c.Bearer (some ((w.Marshal data).1.getD [])) := by
  intro req hreq
  rcases hM : w.Marshal data with ⟨js, me⟩
  cases me with
  | some e => rw [Put_marshal_failure w c path data js e hM] at hreq; cases hreq
  | none =>
    cases h : w.parseURL (c.Host ++ path) with
    | error e => rw [Put_unsent w c path data js e hM h] at hreq; cases hreq
    | ok u =>
      rw [Put_sends w c path u data js hM h, transportCalls_sendAndRead,
        withContentType_authorized] at hreq
      have hr : req = wireRequest "PUT" u c.Bearer (some (js.getD [])) := by simpa using hreq
      subst hr
      exact ⟨rfl, rfl⟩

theorem sendAndRead_outcome_failure {α : Type} (w : World α) (req : Request) (line : String)
    (h : (w.Do (withContentType req)).2 ≠ none) :
    (sendAndRead w req line).outcome = Outcome.nilDereference
      ∧ closeCount (sendAndRead w req line).trace = 0 := by
  rcases hd : w.Do (withContentType req) with ⟨r, e⟩
  cases e with
  | none => rw [hd] at h; exact absurd rfl h
  | some e => rw [sendAndRead_failure w req line r e hd]; exact ⟨rfl, rfl⟩

theorem sendAndRead_closes_once {α : Type} (w : World α) (req : Request) (line : String)
    (res : Response) (h : w.Do (withContentType req) = (some res, none)) :
    (sendAndRead w req line).outcome
        = Outcome.returned (readResponse w res).1.1 (readResponse w res).1.2
      ∧ closeCount (sendAndRead w req line).trace = 1 := by
  rw [sendAndRead_success w req line res h]
  refine ⟨rfl, ?_⟩
  show closeCount ([Event.clientDo (withContentType req)]
    ++ ((readResponse w res).2 ++ [Event.bodyClose])) = 1
  rw [closeCount_append, closeCount_append, readResponse_no_close]
  rfl

theorem Get_calls_length {α : Type} (w : World α) (c : HTTPClient) (path u : String)
    (h : w.parseURL (c.Host ++ path) = Except.ok u) :
    (transportCalls (HTTPClient.Get w c path).trace).length = 1 := by
  rw [Get_sends w c path u h, transportCalls_sendAndRead]; rfl

theorem Delete_calls_length {α : Type} (w : World α) (c : HTTPClient) (path u : String)
    (h : w.parseURL (c.Host ++ path) = Except.ok u) :
    (transportCalls (HTTPClient.Delete w c path).trace).length = 1 := by
  rw [Delete_sends w c path u h, transportCalls_sendAndRead]; rfl

theorem Post_calls_length {α : Type} (w : World α) (c : HTTPClient) (path u : String)
    (data : α) (hM : (w.Marshal data).2 = none) (h : w.parseURL (c.Host ++ path) = Except.ok u) :
    (transportCalls (HTTPClient.Post w c path data).trace).length = 1 := by
  rcases hm : w.Marshal data with ⟨js, me⟩
  rw [hm] at hM
  simp only at hM
  subst hM
  rw [Post_sends w c path u data js hm h, transportCalls_sendAndRead]; rfl

theorem Put_calls_length {α : Type} (w : World α) (c : HTTPClient) (path u : String)
    (data : α) (hM : (w.Marshal data).2 = none) (h : w.parseURL (c.Host ++ path) = Except.ok u) :
    (transportCalls (HTTPClient.Put w c path data).trace).length = 1 := by
  rcases hm : w.Marshal data with ⟨js, me⟩
  rw [hm] at hM
  simp only at hM
  subst hM
  rw [Put_sends w c path u data js hm h, transportCalls_sendAndRead]; rfl

/-! ## The claims -/

/-- C1 (the code departs from the claim). Whenever the transport fails, that is
`client.Do` returns a non-nil error, none of `Get`, `Post`, `Put`, `Delete`
returns: `sendRequest` yields a nil response, and the `defer res.Body.Close()`
placed before the error check dereferences it. The calls end in a nil pointer
dereference instead of returning nil bytes and the transport error. -/
theorem transport_failure_aborts_verbs {α : Type} (w : World α) (c : HTTPClient) (path : String)
    (data : α) (u : String) (hURL : w.parseURL (c.Host ++ path) = Except.ok u)
    (hM : (w.Marshal data).2 = none) (hDo : ∀ req, (w.Do req).2 ≠ none) :
    (HTTPClient.Get w c path).outcome = Outcome.nilDereference
      ∧ (HTTPClient.Post w c path data).outcome = Outcome.nilDereference
      ∧ (HTTPClient.Put w c path data).outcome = Outcome.nilDereference
      ∧ (HTTPClient.Delete w c path).outcome = Outcome.nilDereference := by
  rcases hm : w.Marshal data with ⟨js, me⟩
  rw [hm] at hM
  simp only at hM
  subst hM
  rw [Get_sends w c path u hURL, Post_sends w c path u data js hm hURL,
    Put_sends w c path u data js hm hURL, Delete_sends w c path u hURL]
  exact ⟨(sendAndRead_outcome_failure w _ _ (hDo _)).1, (sendAndRead_outcome_failure w _ _ (hDo _)).1,
    (sendAndRead_outcome_failure w _ _ (hDo _)).1, (sendAndRead_outcome_failure w _ _ (hDo _)).1⟩

/-- Instance of C1: a refused connection makes all four verbs stop with a nil
pointer dereference. -/
theorem transport_failure_aborts_verbs_witness :
    (HTTPClient.Get refusing sampleClient "/x").outcome = Outcome.nilDereference
      ∧ (HTTPClient.Post refusing sampleClient "/x" true).outcome = Outcome.nilDereference
      ∧ (HTTPClient.Put refusing sampleClient "/x" true).outcome = Outcome.nilDereference
      ∧ (HTTPClient.Delete refusing sampleClient "/x").outcome = Outcome.nilDereference :=
  transport_failure_aborts_verbs refusing sampleClient "/x" true "http://127.0.0.1:1/x" rfl rfl
    (fun _ => by simp [refusing])

/-- C2. For a response with status code from 100 to 299 whose body reads without
error, `readResponse` returns exactly the body bytes and a nil error, and so does
each of `Get`, `Post`, `Put`, `Delete` when the transport delivers that response
for its request. -/
theorem success_returns_exact_body {α : Type} (w : World α) (res : Response)
    (_hlo : 100 ≤ res.StatusCode) (hhi : res.StatusCode ≤ 299) (hread : res.Body.readErr = none) :
    (readResponse w res).1 = (some res.Body.data, none)
      ∧ ∀ (c : HTTPClient) (path u : String), w.parseURL (c.Host ++ path) = Except.ok u →
        (w.Do (wireRequest "GET" u c.Bearer none) = (some res, none) →
            (HTTPClient.Get w c path).outcome = Outcome.returned (some res.Body.data) none)
          ∧ (w.Do (wireRequest "DELETE" u c.Bearer none) = (some res, none) →
            (HTTPClient.Delete w c path).outcome = Outcome.returned (some res.Body.data) none)
          ∧ (∀ (data : α) (js : Bytes), w.Marshal data = (some js, none) →
              (w.Do (wireRequest "POST" u c.Bearer (some js)) = (some res, none) →
                (HTTPClient.Post w c path data).outcome
                  = Outcome.returned (some res.Body.data) none)
              ∧ (w.Do (wireRequest "PUT" u c.Bearer (some js)) = (some res, none) →
                (HTTPClient.Put w c path data).outcome
                  = Outcome.returned (some res.Body.data) none)) := by
  have hr := readResponse_read_ok w res hhi hread
  refine ⟨by rw [hr], ?_⟩
  intro c path u hURL
  refine ⟨?_, ?_, ?_⟩
  · intro hDo
    rw [← withContentType_authorized] at hDo
    rw [Get_sends w c path u hURL, (sendAndRead_closes_once w _ _ res hDo).1, hr]
  · intro hDo
    rw [← withContentType_authorized] at hDo
    rw [Delete_sends w c path u hURL, (sendAndRead_closes_once w _ _ res hDo).1, hr]
  · intro data js hM
    constructor
    · intro hDo
      rw [← withContentType_authorized] at hDo
      rw [Post_sends w c path u data (some js) hM hURL]
      exact ((sendAndRead_closes_once w _ _ res hDo).1).trans (by rw [hr])
    · intro hDo
      rw [← withContentType_authorized] at hDo
      rw [Put_sends w c path u data (some js) hM hURL]
      exact ((sendAndRead_closes_once w _ _ res hDo).1).trans (by rw [hr])

/-- Instance of C2: a 200 response carrying two bytes is returned as is, both by
`readResponse` and by `Get`. -/
theorem success_returns_exact_body_witness :
    (readResponse (answering (sampleResponse 200 "200 OK" [111, 107]))
        (sampleResponse 200 "200 OK" [111, 107])).1 = (some [111, 107], none)
      ∧ (HTTPClient.Get (answering (sampleResponse 200 "200 OK" [111, 107])) sampleClient
          "/x").outcome = Outcome.returned (some [111, 107]) none :=
  have h := success_returns_exact_body (answering (sampleResponse 200 "200 OK" [111, 107]))
    (sampleResponse 200 "200 OK" [111, 107]) (by decide) (by decide) rfl
  ⟨h.1, (h.2 sampleClient "/x" "http://127.0.0.1:1/x" rfl).1 rfl⟩

/-- C3. For a response with status code from 300 to 599, whatever its body holds
and whatever the decoder makes of it, `readResponse` returns nil bytes and a
non-nil error whose printed form is exactly the three decimal digits of the
status code. -/
theorem error_status_returns_code {α : Type} (w : World α) (res : Response)
    (hlo : 300 ≤ res.StatusCode) (hhi : res.StatusCode ≤ 599) :
    (readResponse w res).1.1 = none
      ∧ ∃ e : GoError, (readResponse w res).1.2 = some e
          ∧ SprintError (some e) = threeDigitNumeral res.StatusCode.toNat := by
  rw [readResponse_error_status w res (by omega)]
  refine ⟨rfl, _, rfl, ?_⟩
  obtain ⟨n, hn⟩ := Int.eq_ofNat_of_zero_le (show (0 : Int) ≤ res.StatusCode by omega)
  rw [hn] at hlo hhi ⊢
  have h1 : 100 ≤ n := by omega
  have h2 : n ≤ 999 := by omega
  simpa [SprintError, errorsNew] using Sprint_three_digits n h1 h2

/-- Instance of C3: a 503 response whose body is not JSON and whose stream breaks
yields nil bytes and the error that prints as 503. -/
theorem error_status_returns_code_witness :
    (readResponse (answering (sampleResponse 200 "200 OK" []))
        { Status := "503 Service Unavailable", StatusCode := 503,
          Body := { data := [60, 104, 49, 62], readErr := some refused } }).1.1 = none
      ∧ ∃ e : GoError,
          (readResponse (answering (sampleResponse 200 "200 OK" []))
            { Status := "503 Service Unavailable", StatusCode := 503,
              Body := { data := [60, 104, 49, 62], readErr := some refused } }).1.2 = some e
          ∧ SprintError (some e) = "503" :=
  error_status_returns_code (answering (sampleResponse 200 "200 OK" []))
    { Status := "503 Service Unavailable", StatusCode := 503,
      Body := { data := [60, 104, 49, 62], readErr := some refused } } (by decide) (by decide)

/-- C4 as stated fails: an error that was not produced by `readResponse` (here a
value built by a caller, such as `errors.New("404")`) is classified as a 404
error as soon as its text is `404`. -/
theorem Is404Error_accepts_foreign_text :
    Is404Error (some ⟨ErrorOrigin.foreign, "404"⟩) = true
      ∧ (some ⟨ErrorOrigin.foreign, "404"⟩ : Option GoError)
          ≠ some (errorsNew (Sprint StatusNotFound)) := by
  decide

/-- C4 amended. `Is404Error` is true for the status error `readResponse` produces
for status 404 and false for the status error it produces for any other code; it
is false for nil; and for an error of any other kind it is true exactly when the
text of that error is `404`. -/
theorem Is404Error_by_kind {α : Type} (w : World α) (res : Response) (e : GoError)
    (hS : 299 < res.StatusCode) (_he : e.origin ≠ ErrorOrigin.httpStatus) :
    (Is404Error (readResponse w res).1.2 = true ↔ res.StatusCode = 404)
      ∧ Is404Error none = false
      ∧ (Is404Error (some e) = true ↔ e.text = "404") := by
  refine ⟨?_, by decide, ?_⟩
  · rw [readResponse_error_status w res hS]
    have h404 : Sprint StatusNotFound = "404" := by decide
    simp only [Is404Error, SprintError, errorsNew, h404, beq_iff_eq]
    rw [eq_comm, Sprint_eq_404]
  · have h404 : Sprint StatusNotFound = "404" := by decide
    simp only [Is404Error, SprintError, h404, beq_iff_eq]
    exact eq_comm

/-- Instance of C4 amended: the status error for 500 is not a 404 error, while a
transport error whose text is `404` is. -/
theorem Is404Error_by_kind_witness :
    ((299 : Int) < 500 ∧ ErrorOrigin.transport ≠ ErrorOrigin.httpStatus)
      ∧ (Is404Error (readResponse (answering (sampleResponse 500 "500" []))
            (sampleResponse 500 "500" [])).1.2 = true ↔ (500 : Int) = 404)
      ∧ Is404Error none = false
      ∧ (Is404Error (some ⟨ErrorOrigin.transport, "404"⟩) = true ↔ "404" = "404") :=
  ⟨⟨by decide, by decide⟩,
    Is404Error_by_kind (answering (sampleResponse 500 "500" [])) (sampleResponse 500 "500" [])
      ⟨ErrorOrigin.transport, "404"⟩ (by decide) (by decide)⟩

/-- C5. For every error value, nil included, `Is404Error` is true exactly when
the string `fmt.Sprint` prints for it is the three-character string `404`. -/
theorem Is404Error_iff_prints_404 (err : Option GoError) :
    Is404Error err = true ↔ SprintError err = "404" := by
  have h404 : Sprint StatusNotFound = "404" := by decide
  simp only [Is404Error, h404, beq_iff_eq]
  exact eq_comm

/-- C6. When `json.Marshal` fails for the payload, `Post` and `Put` return nil
bytes and the marshal error itself, the only effects are the two log lines, and
no request reaches the transport. -/
theorem marshal_failure_sends_nothing {α : Type} (w : World α) (c : HTTPClient) (path : String)
    (data : α) (cause : GoError) (h : (w.Marshal data).2 = some cause) :
    ((HTTPClient.Post w c path data).outcome = Outcome.returned none (some cause)
        ∧ transportCalls (HTTPClient.Post w c path data).trace = []
        ∧ (HTTPClient.Post w c path data).trace
            = [Event.logError "Problem marshalling json for http request",
               Event.logError "Problem marshalling json for POST request"])
      ∧ ((HTTPClient.Put w c path data).outcome = Outcome.returned none (some cause)
        ∧ transportCalls (HTTPClient.Put w c path data).trace = []
        ∧ (HTTPClient.Put w c path data).trace
            = [Event.logError "Problem marshalling json for http request",
               Event.logError "Problem marshalling json for PUT request"]) := by
  rcases hm : w.Marshal data with ⟨js, me⟩
  rw [hm] at h
  simp only at h
  subst h
  rw [Post_marshal_failure w c path data js cause hm, Put_marshal_failure w c path data js cause hm]
  exact ⟨⟨rfl, rfl, rfl⟩, ⟨rfl, rfl, rfl⟩⟩

/-- Instance of C6: the payload the sample world cannot marshal. -/
theorem marshal_failure_sends_nothing_witness :
    ((answering (sampleResponse 200 "200 OK" [])).Marshal false).2 = some unsupported
      ∧ (HTTPClient.Post (answering (sampleResponse 200 "200 OK" [])) sampleClient "/x"
          false).outcome = Outcome.returned none (some unsupported)
      ∧ transportCalls (HTTPClient.Post (answering (sampleResponse 200 "200 OK" [])) sampleClient
          "/x" false).trace = [] :=
  have h := marshal_failure_sends_nothing (answering (sampleResponse 200 "200 OK" []))
    sampleClient "/x" false unsupported rfl
  ⟨rfl, h.1.1, h.1.2.1⟩

/-- C7 (the code departs from the claim). With a request that can be built:
when the transport delivers a response, every verb returns and has closed the
body exactly once, whichever way `readResponse` ends; but when the transport
fails, no verb completes: evaluating `res.Body` for the deferred `Close` on the
nil response stops the call with a nil pointer dereference, with no `Close`
performed. -/
theorem body_close_on_every_path {α : Type} (w : World α) (c : HTTPClient) (path : String)
    (data : α) (u : String) (hURL : w.parseURL (c.Host ++ path) = Except.ok u)
    (hM : (w.Marshal data).2 = none) :
    (∀ res : Response, (∀ req, w.Do req = (some res, none)) →
        ((HTTPClient.Get w c path).outcome ≠ Outcome.nilDereference
          ∧ closeCount (HTTPClient.Get w c path).trace = 1)
        ∧ ((HTTPClient.Post w c path data).outcome ≠ Outcome.nilDereference
          ∧ closeCount (HTTPClient.Post w c path data).trace = 1)
        ∧ ((HTTPClient.Put w c path data).outcome ≠ Outcome.nilDereference
          ∧ closeCount (HTTPClient.Put w c path data).trace = 1)
        ∧ ((HTTPClient.Delete w c path).outcome ≠ Outcome.nilDereference
          ∧ closeCount (HTTPClient.Delete w c path).trace = 1))
      ∧ ((∀ req, (w.Do req).2 ≠ none) →
        ((HTTPClient.Get w c path).outcome = Outcome.nilDereference
          ∧ closeCount (HTTPClient.Get w c path).trace = 0)
        ∧ ((HTTPClient.Post w c path data).outcome = Outcome.nilDereference
          ∧ closeCount (HTTPClient.Post w c path data).trace = 0)
        ∧ ((HTTPClient.Put w c path data).outcome = Outcome.nilDereference
          ∧ closeCount (HTTPClient.Put w c path data).trace = 0)
        ∧ ((HTTPClient.Delete w c path).outcome = Outcome.nilDereference
          ∧ closeCount (HTTPClient.Delete w c path).trace = 0)) := by
  rcases hm : w.Marshal data with ⟨js, me⟩
  rw [hm] at hM
  simp only at hM
  subst hM
  rw [Get_sends w c path u hURL, Post_sends w c path u data js hm hURL,
    Put_sends w c path u data js hm hURL, Delete_sends w c path u hURL]
  constructor
  · intro res hDo
    have key : ∀ (req : Request) (line : String),
        (sendAndRead w req line).outcome ≠ Outcome.nilDereference
          ∧ closeCount (sendAndRead w req line).trace = 1 := by
      intro req line
      have h := sendAndRead_closes_once w req line res (hDo _)
      refine ⟨?_, h.2⟩
      rw [h.1]
      exact fun hcontra => Outcome.noConfusion hcontra
    exact ⟨key _ _, key _ _, key _ _, key _ _⟩
  · intro hDo
    exact ⟨sendAndRead_outcome_failure w _ _ (hDo _), sendAndRead_outcome_failure w _ _ (hDo _),
      sendAndRead_outcome_failure w _ _ (hDo _), sendAndRead_outcome_failure w _ _ (hDo _)⟩

/-- Instance of C7: with a refused connection `Delete` stops with a nil pointer
dereference and no `Close`. -/
theorem body_close_on_every_path_witness :
    (HTTPClient.Delete refusing sampleClient "/gone").outcome = Outcome.nilDereference
      ∧ closeCount (HTTPClient.Delete refusing sampleClient "/gone").trace = 0 :=
  ((body_close_on_every_path refusing sampleClient "/gone" true "http://127.0.0.1:1/gone" rfl
      rfl).2
    (fun _ => by simp [refusing])).2.2.2

/-- C8 as stated fails: the request `Post` hands to the transport carries the
URL that `http.NewRequest` obtained by parsing `Host + path`, which is not the
concatenation itself. Posting to the path `/a b` sends a request whose URL
prints as `http://127.0.0.1:1/a%20b`. -/
theorem post_request_url_is_not_raw_concatenation :
    wireRequest "POST" "http://127.0.0.1:1/a%20b" "s3cr3t" (some [116, 114, 117, 101])
        ∈ transportCalls (HTTPClient.Post (answering (sampleResponse 201 "201 Created" []))
            sampleClient "/a b" true).trace
      ∧ (wireRequest "POST" "http://127.0.0.1:1/a%20b" "s3cr3t" (some [116, 114, 117, 101])).URL
          ≠ sampleClient.Host ++ "/a b" := by
  decide

/-- C8 amended. For a payload that marshals to the bytes `js`, every request
`Post` (respectively `Put`) hands to the transport has method POST (respectively
PUT), carries as URL the result of parsing `Host ++ path` in `http.NewRequest`,
and has exactly `js` as body; and when `Host ++ path` parses, exactly one request
is handed over. -/
theorem post_put_request_carries_parsed_url {α : Type} (w : World α) (c : HTTPClient)
    (path : String) (data : α) (js : Bytes) (hM : w.Marshal data = (some js, none)) :
    (∀ req ∈ transportCalls (HTTPClient.Post w c path data).trace,
        req.Method = "POST" ∧ w.parseURL (c.Host ++ path) = Except.ok req.URL
          ∧ req.Body = some js)
      ∧ (∀ req ∈ transportCalls (HTTPClient.Put w c path data).trace,
        req.Method = "PUT" ∧ w.parseURL (c.Host ++ path) = Except.ok req.URL
          ∧ req.Body = some js)
      ∧ (∀ u : String, w.parseURL (c.Host ++ path) = Except.ok u →
        (transportCalls (HTTPClient.Post w c path data).trace).length = 1
          ∧ (transportCalls (HTTPClient.Put w c path data).trace).length = 1) := by
  have hM2 : (w.Marshal data).2 = none := by rw [hM]
  refine ⟨?_, ?_, fun u h =>
    ⟨Post_calls_length w c path u data hM2 h, Put_calls_length w c path u data hM2 h⟩⟩
  · intro req hreq
    have h := Post_calls w c path data req hreq
    rw [hM] at h
    refine ⟨?_, h.1, ?_⟩
    · rw [h.2]; rfl
    · rw [h.2]; rfl
  · intro req hreq
    have h := Put_calls w c path data req hreq
    rw [hM] at h
    refine ⟨?_, h.1, ?_⟩
    · rw [h.2]; rfl
    · rw [h.2]; rfl

/-- Instance of C8 amended: putting `true` to the path `/items/a b` hands over
exactly one request; its method is PUT, its URL is the parsed form of
`Host ++ path` and its body is the four bytes of `true`. -/
theorem post_put_request_carries_parsed_url_witness :
    (answering (sampleResponse 201 "201 Created" [])).Marshal true
        = (some [116, 114, 117, 101], none)
      ∧ wireRequest "PUT" "http://127.0.0.1:1/items/a%20b" "s3cr3t" (some [116, 114, 117, 101])
          ∈ transportCalls (HTTPClient.Put (answering (sampleResponse 201 "201 Created" []))
              sampleClient "/items/a b" true).trace
      ∧ ((wireRequest "PUT" "http://127.0.0.1:1/items/a%20b" "s3cr3t"
            (some [116, 114, 117, 101])).Method = "PUT"
        ∧ (answering (sampleResponse 201 "201 Created" [])).parseURL
            (sampleClient.Host ++ "/items/a b")
          = Except.ok (wireRequest "PUT" "http://127.0.0.1:1/items/a%20b" "s3cr3t"
              (some [116, 114, 117, 101])).URL
        ∧ (wireRequest "PUT" "http://127.0.0.1:1/items/a%20b" "s3cr3t"
            (some [116, 114, 117, 101])).Body = some [116, 114, 117, 101])
      ∧ (transportCalls (HTTPClient.Put (answering (sampleResponse 201 "201 Created" []))
          sampleClient "/items/a b" true).trace).length = 1 :=
  have h := post_put_request_carries_parsed_url (answering (sampleResponse 201 "201 Created" []))
    sampleClient "/items/a b" true [116, 114, 117, 101] rfl
  ⟨rfl, by decide, h.2.1 _ (by decide), (h.2.2 "http://127.0.0.1:1/items/a%20b" rfl).2⟩

/-- C9. For every client configuration and every verb, each request handed to
the transport carries exactly one Authorization value, the configured `Bearer`
unchanged (so an empty `Bearer` gives the empty value); and when the request can
be built, exactly one request is handed over. -/
theorem authorization_is_bearer_verbatim {α : Type} (w : World α) (c : HTTPClient)
    (path : String) (data : α) :
    (∀ req ∈ transportCalls (HTTPClient.Get w c path).trace,
        Header.Values req.Header "Authorization" = [c.Bearer])
      ∧ (∀ req ∈ transportCalls (HTTPClient.Post w c path data).trace,
        Header.Values req.Header "Authorization" = [c.Bearer])
      ∧ (∀ req ∈ transportCalls (HTTPClient.Put w c path data).trace,
        Header.Values req.Header "Authorization" = [c.Bearer])
      ∧ (∀ req ∈ transportCalls (HTTPClient.Delete w c path).trace,
        Header.Values req.Header "Authorization" = [c.Bearer])
      ∧ (∀ u : String, w.parseURL (c.Host ++ path) = Except.ok u →
        (transportCalls (HTTPClient.Get w c path).trace).length = 1
          ∧ (transportCalls (HTTPClient.Delete w c path).trace).length = 1
          ∧ ((w.Marshal data).2 = none →
            (transportCalls (HTTPClient.Post w c path data).trace).length = 1
              ∧ (transportCalls (HTTPClient.Put w c path data).trace).length = 1)) := by
  refine ⟨?_, ?_, ?_, ?_, fun u h =>
    ⟨Get_calls_length w c path u h, Delete_calls_length w c path u h,
      fun hM => ⟨Post_calls_length w c path u data hM h, Put_calls_length w c path u data hM h⟩⟩⟩
  · intro req hreq
    rw [(Get_calls w c path req hreq).2]
    simp [wireRequest, Header.Values, List.lookup]
  · intro req hreq
    rw [(Post_calls w c path data req hreq).2]
    simp [wireRequest, Header.Values, List.lookup]
  · intro req hreq
    rw [(Put_calls w c path data req hreq).2]
    simp [wireRequest, Header.Values, List.lookup]
  · intro req hreq
    rw [(Delete_calls w c path req hreq).2]
    simp [wireRequest, Header.Values, List.lookup]

/-- Instance of C9: with an empty `Bearer`, `Get` hands over one request and its
only Authorization value is the empty string. -/
theorem authorization_is_bearer_verbatim_witness :
    (transportCalls (HTTPClient.Get refusing { Bearer := "", Host := "http://h" }
        "/p").trace).length = 1
      ∧ Header.Values (wireRequest "GET" "http://h/p" "" none).Header "Authorization" = [""] :=
  have h := authorization_is_bearer_verbatim refusing { Bearer := "", Host := "http://h" }
    "/p" true
  ⟨(h.2.2.2.2 "http://h/p" rfl).1, h.1 (wireRequest "GET" "http://h/p" "" none) (by decide)⟩

/-- C10. For each of the four verbs, `Get` and `Delete` included although they
send no body, every request handed to the transport carries the Content-Type
header with the single value `application/json; charset=utf-8`; and when the
request can be built, exactly one request is handed over. -/
theorem content_type_always_json {α : Type} (w : World α) (c : HTTPClient)
    (path : String) (data : α) :
    (∀ req ∈ transportCalls (HTTPClient.Get w c path).trace,
        req.Body = none
          ∧ Header.Values req.Header "Content-Type" = ["application/json; charset=utf-8"])
      ∧ (∀ req ∈ transportCalls (HTTPClient.Post w c path data).trace,
        Header.Values req.Header "Content-Type" = ["application/json; charset=utf-8"])
      ∧ (∀ req ∈ transportCalls (HTTPClient.Put w c path data).trace,
        Header.Values req.Header "Content-Type" = ["application/json; charset=utf-8"])
      ∧ (∀ req ∈ transportCalls (HTTPClient.Delete w c path).trace,
        req.Body = none
          ∧ Header.Values req.Header "Content-Type" = ["application/json; charset=utf-8"])
      ∧ (∀ u : String, w.parseURL (c.Host ++ path) = Except.ok u →
        (transportCalls (HTTPClient.Get w c path).trace).length = 1
          ∧ (transportCalls (HTTPClient.Delete w c path).trace).length = 1
          ∧ ((w.Marshal data).2 = none →
            (transportCalls (HTTPClient.Post w c path data).trace).length = 1
              ∧ (transportCalls (HTTPClient.Put w c path data).trace).length = 1)) := by
  refine ⟨?_, ?_, ?_, ?_, fun u h =>
    ⟨Get_calls_length w c path u h, Delete_calls_length w c path u h,
      fun hM => ⟨Post_calls_length w c path u data hM h, Put_calls_length w c path u data hM h⟩⟩⟩
  · intro req hreq
    rw [(Get_calls w c path req hreq).2]
    simp [wireRequest, Header.Values, List.lookup]
  · intro req hreq
    rw [(Post_calls w c path data req hreq).2]
    simp [wireRequest, Header.Values, List.lookup]
  · intro req hreq
    rw [(Put_calls w c path data req hreq).2]
    simp [wireRequest, Header.Values, List.lookup]
  · intro req hreq
    rw [(Delete_calls w c path req hreq).2]
    simp [wireRequest, Header.Values, List.lookup]

/-- Instance of C10: `Delete`, which sends no body, hands over one request and
its only Content-Type value is the JSON content type. -/
theorem content_type_always_json_witness :
    (transportCalls (HTTPClient.Delete (answering (sampleResponse 204 "204 No Content" []))
        sampleClient "/items/7").trace).length = 1
      ∧ (wireRequest "DELETE" "http://127.0.0.1:1/items/7" "s3cr3t" none).Body = none
      ∧ Header.Values (wireRequest "DELETE" "http://127.0.0.1:1/items/7" "s3cr3t" none).Header
          "Content-Type" = ["application/json; charset=utf-8"] :=
  have h := content_type_always_json (answering (sampleResponse 204 "204 No Content" []))
    sampleClient "/items/7" true
  ⟨(h.2.2.2.2 "http://127.0.0.1:1/items/7" rfl).2.1, h.2.2.2.1 (wireRequest "DELETE" "http://127.0.0.1:1/items/7" "s3cr3t" none)
    (by decide)⟩

end Eoshttp
